import Mathlib

/-!
Verification of the concurrency/scheduling core of dzhu/banglejs-emu
(a Bangle.js 2 smartwatch emulator written in Rust) against its design
specification.

The development shallowly embeds the three components the specification
calls the core, translated from the Rust sources:

* the touch gesture classifier (TouchTracker.add_touch, src/emu.rs)
* the button watchdog state machine (the watchdog task, src/runner.rs)
* the scheduler/runner loop (AsyncRunner.run, src/runner.rs)

plus the small pieces of the device facade the claims mention
(press_button and pin initialisation, src/emu.rs).

Machine integers: pixel coordinates are u8 and accumulated distances are
u64 in the source; no operation performed on them can overflow within the
ranges the claims quantify over, so they are embedded as Nat.  The idle
duration hint is an i32 and is embedded as Int.

Time is embedded as Nat milliseconds.  The async select loops are
embedded as explicit event schedulers: an armed deadline becomes ready
exactly at its expiry instant, a disarmed deadline (the OptionFuture of
None defined in src/futures_extras.rs) never becomes ready, and among
the events that are ready the earliest one fires first.
-/

namespace BangleEmu

/-- Pin index of the physical button, pub const BTN1: i32 = 17 in
src/emu.rs. -/
def BTN1 : Nat := 17

/-! ## Touch gesture classifier (src/emu.rs, TouchTracker) -/

/-- The Gesture enumeration of src/emu.rs.  The specification writes
Tap for Touch and SwipeDown / SwipeUp / SwipeLeft / SwipeRight for
Down / Up / Left / Right. -/
inductive Gesture where
  | Drag
  | Down
  | Up
  | Left
  | Right
  | Touch
  deriving DecidableEq, Repr

/-- u8::abs_diff on the embedded coordinates. -/
def abs_diff (a b : Nat) : Nat := max a b - min a b

/-- The TouchTracker state of src/emu.rs: an optional (start, last)
pair of points and the accumulated absolute deltas (dx, dy). -/
structure TouchTracker where
  start_last : Option ((Nat × Nat) × (Nat × Nat))
  dist : Nat × Nat
  deriving DecidableEq, Repr

/-- The Default derivation of TouchTracker in src/emu.rs: no active
touch, zero accumulated distance. -/
def TouchTracker.init : TouchTracker := ⟨none, (0, 0)⟩

/-- TouchTracker::add_touch of src/emu.rs, translated clause by clause;
returns the updated tracker and the list of gestures pushed to ret, in
push order. -/
def TouchTracker.add_touch (t : TouchTracker) (pt : Nat × Nat) (contact : Bool) :
    TouchTracker × List Gesture :=
  match t.start_last, contact with
  | none, true =>
      (⟨some (pt, pt), (0, 0)⟩, [Gesture.Drag])
  | some (start, last), true =>
      (⟨some (start, pt),
        (t.dist.1 + abs_diff pt.1 last.1, t.dist.2 + abs_diff pt.2 last.2)⟩,
       [Gesture.Drag])
  | some (start, last), false =>
      let dx := t.dist.1 + abs_diff pt.1 last.1
      let dy := t.dist.2 + abs_diff pt.2 last.2
      let ret := [Gesture.Drag]
        ++ (if dx < 5 ∧ dy < 5 then [Gesture.Touch] else [])
        ++ (if dx > 80 ∧ dy < 20 then
              [if pt.1 > start.1 then Gesture.Right else Gesture.Left] else [])
        ++ (if dx < 20 ∧ dy > 80 then
              [if pt.2 > start.2 then Gesture.Down else Gesture.Up] else [])
      (⟨none, (dx, dy)⟩, ret)
  | none, false => (t, [])

/-- Feed a list of (point, contact) samples through the tracker,
concatenating the emitted gestures. -/
def TouchTracker.run (t : TouchTracker) :
    List ((Nat × Nat) × Bool) → TouchTracker × List Gesture
  | [] => (t, [])
  | (pt, c) :: rest =>
      let p := t.add_touch pt c
      let q := p.1.run rest
      (q.1, p.2 ++ q.2)

/-- Position of a gesture in the fixed emission order the specification
demands: Drag first, then Tap, then a directional swipe. -/
def gestureRank : Gesture → Nat
  | Gesture.Drag => 0
  | Gesture.Touch => 1
  | _ => 2

/-- Whether a gesture is a directional swipe. -/
def isSwipe : Gesture → Bool
  | Gesture.Down => true
  | Gesture.Up => true
  | Gesture.Left => true
  | Gesture.Right => true
  | _ => false

/-! ## Button watchdog (src/runner.rs, the watchdog task)

The shared Flags cell handed to the watchdog is imported by
src/runner.rs from the emulator module, whose provided source does not
contain it.

Modelled from the spec: Flag supports set() / get(); reset_requested and
interrupt_requested are two independently settable boolean flags, set by
the Watchdog, cleared only by the Device Facade (which does not act in
the runs modelled here). -/

structure Flags where
  reset : Bool
  interrupt : Bool
  deriving DecidableEq, Repr

/-- Watchdog task state: the two optional absolute deadlines (in ms),
the shared flags, and the log of wake signals sent to the runner. -/
structure WatchdogState where
  reset_deadline : Option Nat
  interrupt_deadline : Option Nat
  flags : Flags
  wakes : List Nat
  deriving DecidableEq, Repr

/-- Initial watchdog state: no deadline armed, no flag set. -/
def wdInit : WatchdogState := ⟨none, none, ⟨false, false⟩, []⟩

/-- The three select arms of the watchdog loop in src/runner.rs. -/
inductive WdEvent where
  | button (b : Bool)
  | resetFire
  | interruptFire
  deriving DecidableEq, Repr

/-- One iteration of the watchdog select loop, translated arm by arm
from src/runner.rs lines 34-59; now is the instant at which the arm
runs. -/
def watchdogStep (s : WatchdogState) (now : Nat) : WdEvent → WatchdogState
  | WdEvent.button true =>
      { s with reset_deadline := some (now + 1500),
               interrupt_deadline := some (now + 2000) }
  | WdEvent.button false =>
      { s with reset_deadline := none, interrupt_deadline := none }
  | WdEvent.resetFire =>
      { s with flags := { s.flags with reset := true },
               wakes := s.wakes ++ [now],
               reset_deadline := none }
  | WdEvent.interruptFire =>
      { s with flags := if s.flags.reset
                        then { s.flags with interrupt := true }
                        else s.flags,
               interrupt_deadline := none }

/-- The arm of the select that receives from button_rx performs
button.unwrap(): a received signal is processed by watchdogStep, while a
closed channel (recv returning None) panics.  none models the panic. -/
def watchdogRecvArm (s : WatchdogState) (now : Nat) :
    Option Bool → Option WatchdogState
  | some b => some (watchdogStep s now (WdEvent.button b))
  | none => none

/-- Deliver a timestamped list of button signals through the receive
arm (each one arriving on an open channel). -/
def watchdogSignals (s : WatchdogState) : List (Nat × Bool) → Option WatchdogState
  | [] => some s
  | (t, b) :: rest =>
      match watchdogRecvArm s t (some b) with
      | some s' => watchdogSignals s' rest
      | none => none

/-- Earlier of two optional timestamped events; on a tie the left one
wins. -/
def pickEarlier :
    Option (Nat × WdEvent) → Option (Nat × WdEvent) → Option (Nat × WdEvent)
  | none, o => o
  | some a, none => some a
  | some a, some c => if c.1 < a.1 then some c else some a

/-- The next arm of the watchdog select to complete, given the pending
timestamped button signals (in arrival order): an armed deadline becomes
ready at its expiry, a disarmed one never (OptionFuture of None pends
forever, src/futures_extras.rs), and the earliest ready event fires
first, deadlines taking priority on ties.  Returns the instant, the
event and the remaining button queue. -/
def wdNext (s : WatchdogState) (btns : List (Nat × Bool)) :
    Option (Nat × WdEvent × List (Nat × Bool)) :=
  let dr := s.reset_deadline.map (fun d => (d, WdEvent.resetFire))
  let di := s.interrupt_deadline.map (fun d => (d, WdEvent.interruptFire))
  let db := btns.head?.map (fun tb => (tb.1, WdEvent.button tb.2))
  match pickEarlier (pickEarlier dr di) db with
  | none => none
  | some (t, e) =>
      some (t, e, match e with
                  | WdEvent.button _ => btns.tail
                  | _ => btns)

/-- Run the watchdog select loop to quiescence (bounded by fuel),
recording after each fired arm the instant, the event and the state it
produced. -/
def watchdogRun :
    Nat → WatchdogState → List (Nat × Bool) →
    WatchdogState × List (Nat × WdEvent × WatchdogState)
  | 0, s, _ => (s, [])
  | fuel + 1, s, btns =>
      match wdNext s btns with
      | none => (s, [])
      | some (t, e, btns') =>
          let s' := watchdogStep s t e
          let q := watchdogRun fuel s' btns'
          (q.1, (t, e, s') :: q.2)

/-! ## Scheduler / runner (src/runner.rs, AsyncRunner::run) -/

/-- The Input variants of src/emu.rs; console bytes are embedded as
lists of naturals. -/
inductive Input where
  | Console (s : List Nat)
  | Touch (x y : Nat) (contact : Bool)
  | Button (b : Bool)
  deriving DecidableEq, Repr

/-- Device facade operations the runner invokes when dispatching one
queued Input (src/runner.rs lines 139-143 together with
Emulator::send_touch of src/emu.rs). -/
inductive DevCall where
  | push_string (s : List Nat)
  | send_touch_event (x y : Nat) (contact : Bool) (g : Gesture)
  | press_button (b : Bool)
  deriving DecidableEq, Repr

/-- Emulator::send_touch of src/emu.rs: classify the sample, then
forward one send_touch_event per emitted gesture, in emission order. -/
def sendTouch (tt : TouchTracker) (x y : Nat) (contact : Bool) :
    TouchTracker × List DevCall :=
  let p := tt.add_touch (x, y) contact
  (p.1, p.2.map (fun g => DevCall.send_touch_event x y contact g))

/-- The per-variant dispatch of one received Input performed by the
runner (src/runner.rs lines 139-143). -/
def dispatchInput (tt : TouchTracker) : Input → TouchTracker × List DevCall
  | Input.Console s => (tt, [DevCall.push_string s])
  | Input.Touch x y contact => sendTouch tt x y contact
  | Input.Button b => (tt, [DevCall.press_button b])

/-- Sequential dispatch of a list of Inputs in order, threading the
tracker and concatenating the device calls. -/
def dispatchList (tt : TouchTracker) : List Input → TouchTracker × List DevCall
  | [] => (tt, [])
  | i :: is =>
      let p := dispatchInput tt i
      let q := dispatchList p.1 is
      (q.1, p.2 ++ q.2)

/-- State of the runner consuming loop: the FIFO contents of the
internal input queue (in arrival order), the touch tracker owned by the
emulator, and the trace of facade calls made so far. -/
structure RunnerState where
  queue : List Input
  touch : TouchTracker
  calls : List DevCall
  deriving DecidableEq, Repr

/-- The three arms of the inner select of AsyncRunner::run
(src/runner.rs lines 128-148): the timeout, a watchdog wake, and a
receive on the internal input queue.  A recv when the queue is empty
means the channel has been closed and recv returned None. -/
inductive RunnerEvt where
  | timeout
  | wake
  | recv
  deriving DecidableEq, Repr

/-- One arm of the inner select loop, returning the new state and
whether the arm breaks out of the inner loop.  Only the timeout arm
breaks; the wake arm does nothing; the recv arm dispatches the next
queued input to the device, and when recv yields None (closed queue)
the if-let falls through and the loop continues. -/
def runnerStep (st : RunnerState) : RunnerEvt → RunnerState × Bool
  | RunnerEvt.timeout => (st, true)
  | RunnerEvt.wake => (st, false)
  | RunnerEvt.recv =>
      match st.queue with
      | [] => (st, false)
      | i :: rest =>
          let p := dispatchInput st.touch i
          ({ queue := rest, touch := p.1, calls := st.calls ++ p.2 }, false)

/-- Fold an arbitrary schedule of select-arm completions through the
consuming loop. -/
def runnerRun (st : RunnerState) : List RunnerEvt → RunnerState
  | [] => st
  | e :: es => runnerRun (runnerStep st e).1 es

/-- The input fan-in task of src/runner.rs lines 78-85: forwards every
received Input to the internal queue and the payload of every Button to
the watchdog, then returns normally when the inbound channel closes.
Returns (signals forwarded to the watchdog, items forwarded to the
internal queue). -/
def fanIn : List Input → List Bool × List Input
  | [] => ([], [])
  | x :: xs =>
      let p := fanIn xs
      ((match x with | Input.Button b => [b] | _ => []) ++ p.1, x :: p.2)

/-- The bounded idle sub-loop of AsyncRunner::run (src/runner.rs lines
102-113): h gives the successive return values of the device idle
calls; the accumulator counts calls already made; returns (total calls
made, delay hint).  Translated from: delay starts at 1, up to 5
iterations, the first positive hint is kept and breaks the loop. -/
def idleLoopAux : Nat → (Nat → Int) → Nat → Nat × Int
  | 0, _, calls => (calls, 1)
  | n + 1, h, calls =>
      if h calls > 0 then (calls + 1, h calls)
      else idleLoopAux n h (calls + 1)

/-- The idle phase of one outer runner cycle. -/
def idlePhase (h : Nat → Int) : Nat × Int := idleLoopAux 5 h 0

/-! ## Device facade pieces (src/emu.rs) -/

/-- The pin vector built by State::init_banglejs2: 48 pins low, then
pin BTN1 set high. -/
def init_banglejs2_pins : List Bool := (List.replicate 48 false).set BTN1 true

/-- Emulator::press_button of src/emu.rs: store the negation of the
argument into pin BTN1 (pin values are inverted), then send the pin
watch event for BTN1; the event is modelled as the pair of the pin
index and the pin value the firmware reads when the event is sent. -/
def press_button (pins : List Bool) (b : Bool) : List Bool × (Nat × Bool) :=
  let pins' := pins.set BTN1 (!b)
  (pins', (BTN1, pins'.getD BTN1 false))

/-! ## Helper lemmas: touch gesture classifier -/

theorem add_touch_contact_gestures (tt : TouchTracker) (pt : Nat × Nat) :
    (tt.add_touch pt true).2 = [Gesture.Drag] := by
  rcases tt with ⟨sl, d⟩
  rcases sl with _ | ⟨s, l⟩ <;> simp [TouchTracker.add_touch]

theorem add_touch_contact_some (tt : TouchTracker) (pt : Nat × Nat) :
    ((tt.add_touch pt true).1).start_last.isSome = true := by
  rcases tt with ⟨sl, d⟩
  rcases sl with _ | ⟨s, l⟩ <;> simp [TouchTracker.add_touch]

theorem run_append (tt : TouchTracker) (a b : List ((Nat × Nat) × Bool)) :
    tt.run (a ++ b) =
      (((tt.run a).1.run b).1, (tt.run a).2 ++ ((tt.run a).1.run b).2) := by
  induction a generalizing tt with
  | nil => simp [TouchTracker.run]
  | cons x xs ih =>
      rcases x with ⟨pt, c⟩
      simp [TouchTracker.run, ih]

theorem run_contacts_gestures (pts : List (Nat × Nat)) (tt : TouchTracker) :
    (tt.run (pts.map (fun p => (p, true)))).2 =
      List.replicate pts.length Gesture.Drag := by
  induction pts generalizing tt with
  | nil => simp [TouchTracker.run]
  | cons p ps ih =>
      simp [TouchTracker.run, List.replicate_succ, ih, add_touch_contact_gestures]

theorem run_contacts_some (pts : List (Nat × Nat)) (tt : TouchTracker)
    (h : tt.start_last.isSome = true) :
    ((tt.run (pts.map (fun p => (p, true)))).1).start_last.isSome = true := by
  induction pts generalizing tt with
  | nil => simpa [TouchTracker.run] using h
  | cons p ps ih =>
      simp only [List.map_cons, TouchTracker.run]
      exact ih _ (add_touch_contact_some tt p)

theorem add_touch_release_eq (s l d pt : Nat × Nat) :
    TouchTracker.add_touch ⟨some (s, l), d⟩ pt false =
      (⟨none, (d.1 + abs_diff pt.1 l.1, d.2 + abs_diff pt.2 l.2)⟩,
       Gesture.Drag ::
         ((if d.1 + abs_diff pt.1 l.1 < 5 ∧ d.2 + abs_diff pt.2 l.2 < 5
           then [Gesture.Touch] else [])
          ++ ((if d.1 + abs_diff pt.1 l.1 > 80 ∧ d.2 + abs_diff pt.2 l.2 < 20
               then [if pt.1 > s.1 then Gesture.Right else Gesture.Left] else [])
              ++ (if d.1 + abs_diff pt.1 l.1 < 20 ∧ d.2 + abs_diff pt.2 l.2 > 80
                  then [if pt.2 > s.2 then Gesture.Down else Gesture.Up] else [])))) := by
  simp [TouchTracker.add_touch]

theorem add_touch_release_counts (s l d pt : Nat × Nat) :
    ((TouchTracker.add_touch ⟨some (s, l), d⟩ pt false).2).count Gesture.Drag = 1
    ∧ ((TouchTracker.add_touch ⟨some (s, l), d⟩ pt false).2).count Gesture.Touch ≤ 1
    ∧ ((TouchTracker.add_touch ⟨some (s, l), d⟩ pt false).2).countP
        (fun g => isSwipe g) ≤ 1 := by
  simp only [TouchTracker.add_touch]
  split_ifs <;> first | decide | (exfalso; omega)

/-! ## Claim theorems: touch gesture classifier -/

/-- Claim C2: processing a release sample from an active touch first
accumulates the absolute deltas against the last point into the running
totals, then returns a result whose first element is Drag, with Tap
appended iff dx<5 and dy<5, SwipeRight appended iff dx>80, dy<20 and
point.x>start.x, SwipeLeft appended iff dx>80, dy<20 and
point.x<=start.x, SwipeDown appended iff dx<20, dy>80 and
point.y>start.y, SwipeUp appended iff dx<20, dy>80 and
point.y<=start.y, and clears the tracked touch to none; in particular a
release with accumulated totals (100,5), start (10,50) and end (120,50)
yields Drag followed by SwipeRight. -/
theorem touch_release_classification :
    (∀ s l d pt : Nat × Nat,
      (TouchTracker.add_touch ⟨some (s, l), d⟩ pt false).1
          = ⟨none, (d.1 + abs_diff pt.1 l.1, d.2 + abs_diff pt.2 l.2)⟩
      ∧ ((TouchTracker.add_touch ⟨some (s, l), d⟩ pt false).2).head?
          = some Gesture.Drag
      ∧ (Gesture.Touch ∈ (TouchTracker.add_touch ⟨some (s, l), d⟩ pt false).2 ↔
          d.1 + abs_diff pt.1 l.1 < 5 ∧ d.2 + abs_diff pt.2 l.2 < 5)
      ∧ (Gesture.Right ∈ (TouchTracker.add_touch ⟨some (s, l), d⟩ pt false).2 ↔
          d.1 + abs_diff pt.1 l.1 > 80 ∧ d.2 + abs_diff pt.2 l.2 < 20 ∧ pt.1 > s.1)
      ∧ (Gesture.Left ∈ (TouchTracker.add_touch ⟨some (s, l), d⟩ pt false).2 ↔
          d.1 + abs_diff pt.1 l.1 > 80 ∧ d.2 + abs_diff pt.2 l.2 < 20 ∧ pt.1 ≤ s.1)
      ∧ (Gesture.Down ∈ (TouchTracker.add_touch ⟨some (s, l), d⟩ pt false).2 ↔
          d.1 + abs_diff pt.1 l.1 < 20 ∧ d.2 + abs_diff pt.2 l.2 > 80 ∧ pt.2 > s.2)
      ∧ (Gesture.Up ∈ (TouchTracker.add_touch ⟨some (s, l), d⟩ pt false).2 ↔
          d.1 + abs_diff pt.1 l.1 < 20 ∧ d.2 + abs_diff pt.2 l.2 > 80 ∧ pt.2 ≤ s.2))
    ∧ TouchTracker.add_touch ⟨some ((10, 50), (120, 50)), (100, 5)⟩ (120, 50) false
        = (⟨none, (100, 5)⟩, [Gesture.Drag, Gesture.Right]) := by
  constructor
  · intro s l d pt
    rw [add_touch_release_eq]
    refine ⟨rfl, rfl, ?_, ?_, ?_, ?_, ?_⟩ <;>
      simp only [List.mem_cons, List.mem_append] <;>
      split_ifs <;>
      simp_all
  · decide

/-- Counterexample for claim C9: processing a contact-release does not restore
the tracker to the created-empty state: the accumulated deltas survive
the release, only the optional pair is cleared. -/
theorem touch_tracker_reset_counterexample :
    (TouchTracker.add_touch ⟨some ((0, 0), (0, 0)), (0, 0)⟩ (3, 0) false).1
      ≠ TouchTracker.init := by decide

/-- Amended claim C9: the tracker is created empty; every release clears the
optional pair to none, while the accumulated deltas persist after the
release and are reset to (0,0) only when the next touch starts; a
non-none pair can only be produced by a contact sample; and dx and dy
never decrease across add_touch while a touch is active. -/
theorem touch_tracker_state_invariants :
    TouchTracker.init = ⟨none, (0, 0)⟩
    ∧ (∀ (tt : TouchTracker) (pt : Nat × Nat),
        ((tt.add_touch pt false).1).start_last = none
        ∧ ((tt.add_touch pt true).1).start_last.isSome = true)
    ∧ (∀ (d : Nat × Nat) (pt : Nat × Nat),
        (TouchTracker.add_touch ⟨none, d⟩ pt true).1 = ⟨some (pt, pt), (0, 0)⟩)
    ∧ (∀ (s l d pt : Nat × Nat) (c : Bool),
        d.1 ≤ ((TouchTracker.add_touch ⟨some (s, l), d⟩ pt c).1).dist.1
        ∧ d.2 ≤ ((TouchTracker.add_touch ⟨some (s, l), d⟩ pt c).1).dist.2) := by
  refine ⟨rfl, ?_, ?_, ?_⟩
  · intro tt pt
    rcases tt with ⟨sl, d⟩
    rcases sl with _ | ⟨s, l⟩ <;> simp [TouchTracker.add_touch]
  · intro d pt
    simp [TouchTracker.add_touch]
  · intro s l d pt c
    cases c <;> simp [TouchTracker.add_touch]

/-- Claim C8: a single touch made of one or more contact samples followed by
a final release, fed to a freshly created tracker, emits one Drag per
sample (hence n Drags for a touch of n samples), at most one Tap and at
most one directional swipe, and every sample before the release
contributes exactly its single Drag, so Tap and swipe can appear only
at the final release. -/
theorem touch_single_touch_drag_count (pts : List (Nat × Nat)) (rel : Nat × Nat)
    (hne : pts ≠ []) :
    ((TouchTracker.init.run (pts.map (fun p => (p, true)) ++ [(rel, false)])).2).count
        Gesture.Drag = pts.length + 1
    ∧ ((TouchTracker.init.run (pts.map (fun p => (p, true)) ++ [(rel, false)])).2).count
        Gesture.Touch ≤ 1
    ∧ ((TouchTracker.init.run (pts.map (fun p => (p, true)) ++ [(rel, false)])).2).countP
        (fun g => isSwipe g) ≤ 1
    ∧ ((TouchTracker.init.run (pts.map (fun p => (p, true)) ++ [(rel, false)])).2).take
        pts.length = List.replicate pts.length Gesture.Drag := by
  have hsome : ((TouchTracker.init.run (pts.map (fun p => (p, true)))).1).start_last.isSome
      = true := by
    cases pts with
    | nil => exact absurd rfl hne
    | cons p ps =>
        simp only [List.map_cons, TouchTracker.run]
        exact run_contacts_some ps _ (add_touch_contact_some _ _)
  obtain ⟨st, hst⟩ := Option.isSome_iff_exists.mp hsome
  rcases hd : (TouchTracker.init.run (pts.map (fun p => (p, true)))).1 with ⟨sl, dd⟩
  rcases st with ⟨s, l⟩
  rw [hd] at hst
  simp only at hst
  subst hst
  have hrel := add_touch_release_counts s l dd rel
  have hsplit : (TouchTracker.init.run (pts.map (fun p => (p, true)) ++ [(rel, false)])).2
      = List.replicate pts.length Gesture.Drag
        ++ (TouchTracker.add_touch ⟨some (s, l), dd⟩ rel false).2 := by
    rw [run_append]
    rw [run_contacts_gestures, hd]
    simp [TouchTracker.run]
  rw [hsplit]
  refine ⟨?_, ?_, ?_, ?_⟩
  · simp [List.count_append, List.count_replicate, hrel.1]
  · simp only [List.count_append]
    have : (List.replicate pts.length Gesture.Drag).count Gesture.Touch = 0 := by
      simp [List.count_replicate]
    omega
  · simp only [List.countP_append]
    have h0 : (List.replicate pts.length Gesture.Drag).countP (fun g => isSwipe g) = 0 := by
      rw [List.countP_eq_zero]
      intro a ha
      rw [List.eq_of_mem_replicate ha]
      decide
    have h2 := hrel.2.2
    omega
  · have h3 :=
      List.take_left (List.replicate pts.length Gesture.Drag)
        ((TouchTracker.add_touch ⟨some (s, l), dd⟩ rel false).2)
    rw [List.length_replicate] at h3
    exact h3

/-- Witness for claim C8: a two-sample touch (one contact, one release,
both at (10,10)) emits two Drags and one Tap, with the Tap only at the
release. -/
theorem touch_single_touch_drag_count_witness :
    ((TouchTracker.init.run
        [(((10 : Nat), (10 : Nat)), true), (((10 : Nat), (10 : Nat)), false)]).2).count
      Gesture.Drag = 2
    ∧ ((TouchTracker.init.run
        [(((10 : Nat), (10 : Nat)), true), (((10 : Nat), (10 : Nat)), false)]).2).count
      Gesture.Touch ≤ 1
    ∧ ((TouchTracker.init.run
        [(((10 : Nat), (10 : Nat)), true), (((10 : Nat), (10 : Nat)), false)]).2).countP
      (fun g => isSwipe g) ≤ 1
    ∧ ((TouchTracker.init.run
        [(((10 : Nat), (10 : Nat)), true), (((10 : Nat), (10 : Nat)), false)]).2).take
      1 = List.replicate 1 Gesture.Drag :=
  touch_single_touch_drag_count [(10, 10)] (10, 10) (by decide)

/-! ## Claim theorems: button watchdog -/

/-- Claim C1: when the interrupt deadline fires while armed, the handler sets
interrupt_requested exactly when the shared reset_requested flag is
still set (the interrupt is suppressed otherwise), clears the interrupt
deadline in either case, and changes nothing else; consequently a
button press at time 0 held at least 2000 ms (release at any rel with
2000 <= rel, the Device Facade never clearing reset_requested in
between) produces the run: press arms both deadlines, reset_requested
is set at 1500 ms while interrupt_requested is still clear, and
interrupt_requested is set at 2000 ms, in that temporal order. -/
theorem watchdog_interrupt_gate_and_long_hold :
    (∀ (rd : Option Nat) (d now : Nat) (fl : Flags) (wk : List Nat),
      watchdogStep ⟨rd, some d, fl, wk⟩ now WdEvent.interruptFire
          = ⟨rd, none, ⟨fl.reset, fl.reset || fl.interrupt⟩, wk⟩
      ∧ (fl.interrupt = false →
          ((watchdogStep ⟨rd, some d, fl, wk⟩ now WdEvent.interruptFire).flags.interrupt
              = true
            ↔ fl.reset = true)))
    ∧ (∀ rel : Nat, 2000 ≤ rel →
        (watchdogRun 5 wdInit [(0, true), (rel, false)]).2
          = [(0, WdEvent.button true,
              ⟨some 1500, some 2000, ⟨false, false⟩, []⟩),
             (1500, WdEvent.resetFire,
              ⟨none, some 2000, ⟨true, false⟩, [1500]⟩),
             (2000, WdEvent.interruptFire,
              ⟨none, none, ⟨true, true⟩, [1500]⟩),
             (rel, WdEvent.button false,
              ⟨none, none, ⟨true, true⟩, [1500]⟩)]) := by
  constructor
  · intro rd d now fl wk
    rcases fl with ⟨r, i⟩
    constructor
    · cases r <;> simp [watchdogStep]
    · intro hi
      cases r <;> simp_all [watchdogStep]
  · intro rel h
    simp [watchdogRun, wdNext, pickEarlier, watchdogStep, wdInit,
          show ¬(rel < 1500) from by omega, show ¬(rel < 2000) from by omega]

/-- Witness for claim C1: the per-event part instantiated at an armed state with
reset_requested set and interrupt_requested clear, and the scenario
part instantiated with a release at 2500 ms. -/
theorem watchdog_interrupt_gate_and_long_hold_witness :
    (watchdogStep ⟨none, some 2000, ⟨true, false⟩, [1500]⟩ 2000 WdEvent.interruptFire
        = ⟨none, none, ⟨true, true⟩, [1500]⟩)
    ∧ ((watchdogStep ⟨none, some 2000, ⟨true, false⟩, [1500]⟩ 2000
          WdEvent.interruptFire).flags.interrupt = true
        ↔ (⟨true, false⟩ : Flags).reset = true)
    ∧ (watchdogRun 5 wdInit [(0, true), (2500, false)]).2
        = [(0, WdEvent.button true, ⟨some 1500, some 2000, ⟨false, false⟩, []⟩),
           (1500, WdEvent.resetFire, ⟨none, some 2000, ⟨true, false⟩, [1500]⟩),
           (2000, WdEvent.interruptFire, ⟨none, none, ⟨true, true⟩, [1500]⟩),
           (2500, WdEvent.button false, ⟨none, none, ⟨true, true⟩, [1500]⟩)] :=
  ⟨(watchdog_interrupt_gate_and_long_hold.1 none 2000 2000 ⟨true, false⟩ [1500]).1,
   (watchdog_interrupt_gate_and_long_hold.1 none 2000 2000 ⟨true, false⟩ [1500]).2 rfl,
   watchdog_interrupt_gate_and_long_hold.2 2500 (by decide)⟩

/-- Claim C3: when the reset deadline fires while armed, the handler sets the
shared reset_requested flag, sends a wake signal to the runner, clears
only the reset deadline and leaves the interrupt deadline (and the
interrupt flag) untouched; consequently a button press at time 0
released at 1600 ms runs as: press arms both deadlines, reset fires at
1500 ms setting reset_requested and waking the runner, the release at
1600 ms disarms the remaining interrupt deadline, and the run ends
quiescent with interrupt_requested never set at any step. -/
theorem watchdog_reset_fire_and_medium_hold :
    (∀ (d now : Nat) (idl : Option Nat) (fl : Flags) (wk : List Nat),
      watchdogStep ⟨some d, idl, fl, wk⟩ now WdEvent.resetFire
        = ⟨none, idl, ⟨true, fl.interrupt⟩, wk ++ [now]⟩)
    ∧ watchdogRun 5 wdInit [(0, true), (1600, false)]
        = (⟨none, none, ⟨true, false⟩, [1500]⟩,
           [(0, WdEvent.button true,
             ⟨some 1500, some 2000, ⟨false, false⟩, []⟩),
            (1500, WdEvent.resetFire,
             ⟨none, some 2000, ⟨true, false⟩, [1500]⟩),
            (1600, WdEvent.button false,
             ⟨none, none, ⟨true, false⟩, [1500]⟩)])
    ∧ ((watchdogRun 5 wdInit [(0, true), (1600, false)]).2.all
        (fun x => !x.2.2.flags.interrupt)) = true := by
  refine ⟨?_, by decide, by decide⟩
  intro d now idl fl wk
  simp [watchdogStep]

/-- Claim C6: the watchdog never fails on any timestamped sequence of button
signals (the receive arm only unwraps values actually received, so no
signal sequence reaches the panicking branch), and a button-down
received while both deadlines are already armed re-arms both deadlines
from now, at now+1500 ms and now+2000 ms, leaving no stale timers. -/
theorem watchdog_never_fails_and_rearm :
    (∀ (sigs : List (Nat × Bool)) (s : WatchdogState),
      (watchdogSignals s sigs).isSome = true)
    ∧ (∀ (d1 d2 now : Nat) (fl : Flags) (wk : List Nat),
        watchdogStep ⟨some d1, some d2, fl, wk⟩ now (WdEvent.button true)
          = ⟨some (now + 1500), some (now + 2000), fl, wk⟩) := by
  constructor
  · intro sigs
    induction sigs with
    | nil => intro s; simp [watchdogSignals]
    | cons x rest ih =>
        intro s
        rcases x with ⟨t, b⟩
        simpa [watchdogSignals, watchdogRecvArm] using ih _
  · intro d1 d2 now fl wk
    simp [watchdogStep]

/-! ## Helper lemmas: runner idle sub-loop and consuming loop -/

theorem idleLoopAux_calls_le (n : Nat) (h : Nat → Int) (c : Nat) :
    (idleLoopAux n h c).1 ≤ c + n := by
  induction n generalizing c with
  | zero => simp [idleLoopAux]
  | succ n ih =>
      simp only [idleLoopAux]
      split_ifs
      · simp
      · have := ih (c + 1)
        omega

theorem idleLoopAux_all_nonpos (n : Nat) (h : Nat → Int) (c : Nat)
    (H : ∀ i, c ≤ i → i < c + n → h i ≤ 0) :
    idleLoopAux n h c = (c + n, 1) := by
  induction n generalizing c with
  | zero => simp [idleLoopAux]
  | succ n ih =>
      have hc : ¬ (h c > 0) := by
        have := H c (Nat.le_refl c) (by omega)
        omega
      have harith : c + 1 + n = c + (n + 1) := by omega
      simp only [idleLoopAux, if_neg hc]
      rw [ih (c + 1) (fun i h1 h2 => H i (by omega) (by omega)), harith]

theorem idleLoopAux_first_pos (n : Nat) (h : Nat → Int) (c j : Nat)
    (hcj : c ≤ j) (hjn : j < c + n) (hp : 0 < h j)
    (H : ∀ i, c ≤ i → i < j → h i ≤ 0) :
    idleLoopAux n h c = (j + 1, h j) := by
  induction n generalizing c with
  | zero => omega
  | succ n ih =>
      by_cases hc : c = j
      · subst hc
        simp only [idleLoopAux, if_pos hp]
      · have hlt : c < j := by omega
        have hneg : ¬ (h c > 0) := by
          have := H c (Nat.le_refl c) hlt
          omega
        simp only [idleLoopAux, if_neg hneg]
        exact ih (c + 1) (by omega) (by omega) (fun i h1 h2 => H i (by omega) h2)

theorem runnerRun_calls (evs : List RunnerEvt) (st : RunnerState) :
    (runnerRun st evs).calls
      = st.calls
        ++ (dispatchList st.touch (st.queue.take (evs.count RunnerEvt.recv))).2 := by
  induction evs generalizing st with
  | nil => simp [runnerRun, dispatchList]
  | cons e es ih =>
      cases e with
      | timeout =>
          simp only [runnerRun, runnerStep]
          rw [ih]
          simp [List.count_cons]
      | wake =>
          simp only [runnerRun, runnerStep]
          rw [ih]
          simp [List.count_cons]
      | recv =>
          cases hq : st.queue with
          | nil =>
              simp only [runnerRun, runnerStep, hq]
              rw [ih]
              simp [hq, dispatchList]
          | cons i rest =>
              simp only [runnerRun, runnerStep, hq]
              rw [ih]
              simp [List.count_cons, dispatchList, List.append_assoc]

theorem add_touch_gesture_order (tt : TouchTracker) (pt : Nat × Nat) (c : Bool) :
    List.Chain' (fun a b => gestureRank a < gestureRank b) ((tt.add_touch pt c).2) := by
  rcases tt with ⟨sl, d⟩
  rcases sl with _ | ⟨s, l⟩
  · cases c <;> simp [TouchTracker.add_touch]
  · cases c
    · rw [add_touch_release_eq]
      split_ifs <;> (try (exfalso; omega)) <;>
        simp [List.chain'_cons, gestureRank]
    · simp [TouchTracker.add_touch]

/-! ## Claim theorems: scheduler / runner -/

/-- Claim C4: in every outer runner cycle the device idle-step operation is
called at most 5 times; if every one of the 5 hints is non-positive the
sub-loop makes exactly 5 calls and the cycle delay hint defaults to
1 ms; and if j < 5 is the index of the first call returning a positive
hint, the sub-loop stops early after j+1 calls and that hint becomes
the cycle delay. -/
theorem runner_idle_retry_contract (h : Nat → Int) :
    (idlePhase h).1 ≤ 5
    ∧ ((∀ i, i < 5 → h i ≤ 0) → idlePhase h = (5, 1))
    ∧ (∀ j, j < 5 → 0 < h j → (∀ i, i < j → h i ≤ 0) →
        idlePhase h = (j + 1, h j)) := by
  refine ⟨?_, ?_, ?_⟩
  · have := idleLoopAux_calls_le 5 h 0
    simpa [idlePhase] using this
  · intro H
    have := idleLoopAux_all_nonpos 5 h 0 (fun i h1 h2 => H i (by omega))
    simpa [idlePhase] using this
  · intro j hj hp H
    exact idleLoopAux_first_pos 5 h 0 j (by omega) (by omega) hp
      (fun i h1 h2 => H i h2)

/-- Witness for claim C4: an idle stub returning 0 twice and then 7 is called 3
times and yields delay 7; one returning 0 forever is called 5 times and
yields the default delay 1. -/
theorem runner_idle_retry_contract_witness :
    idlePhase (fun i => if i = 2 then (7 : Int) else 0) = (3, 7)
    ∧ idlePhase (fun _ => (0 : Int)) = (5, 1) := by
  constructor
  · have := (runner_idle_retry_contract (fun i => if i = 2 then (7 : Int) else 0)).2.2
      2 (by omega) (by norm_num)
      (by intro i hi; interval_cases i <;> norm_num)
    simpa using this
  · exact (runner_idle_retry_contract (fun _ => (0 : Int))).2.1
      (fun i _ => Int.le_refl 0)

/-- Counterexample for claim C5: a recv completing with None (the internal input
queue closed because the input source disappeared) does not terminate
the consuming loop: the arm reports no break, refuting the claim that
channel closure ends the loop. -/
theorem runner_closed_channel_counterexample :
    ¬ ((runnerStep ⟨[], TouchTracker.init, []⟩ RunnerEvt.recv).2 = true) := by
  decide

/-- Amended claim C5: when the inbound Input channel closes, the fan-in task
finishes normally after forwarding every item in order, while the
Runner's consuming loop does not terminate and does not error: a recv
yielding None is a no-op that leaves the state unchanged and keeps the
inner loop running, and only the timeout arm ends an inner-loop pass
(after which the outer loop continues). -/
theorem runner_closed_channel_behavior :
    (∀ (tt : TouchTracker) (cs : List DevCall),
      runnerStep ⟨[], tt, cs⟩ RunnerEvt.recv = (⟨[], tt, cs⟩, false))
    ∧ (∀ st : RunnerState, runnerStep st RunnerEvt.timeout = (st, true))
    ∧ (∀ st : RunnerState, runnerStep st RunnerEvt.wake = (st, false))
    ∧ (∀ xs : List Input, (fanIn xs).2 = xs) := by
  refine ⟨fun tt cs => rfl, fun st => rfl, fun st => rfl, ?_⟩
  intro xs
  induction xs with
  | nil => rfl
  | cons x xs ih => simp [fanIn, ih]

/-- Claim C7: for every schedule of inner-select completions (timeouts,
wakes and receives in any interleaving), the device calls the runner
makes are exactly the in-order dispatch of the consumed prefix of the
input queue, so queued inputs are never delivered out of arrival order;
each input is dispatched by variant (Console to push_string, Touch to
the gesture classifier and then one send_touch_event per gesture,
Button to press_button), and the gestures of a single touch sample are
forwarded in the fixed order Drag, then Tap, then directional swipe. -/
theorem runner_in_order_delivery :
    (∀ (st : RunnerState) (evs : List RunnerEvt),
      (runnerRun st evs).calls
        = st.calls
          ++ (dispatchList st.touch (st.queue.take (evs.count RunnerEvt.recv))).2)
    ∧ (∀ (tt : TouchTracker) (s : List Nat),
        dispatchInput tt (Input.Console s) = (tt, [DevCall.push_string s]))
    ∧ (∀ (tt : TouchTracker) (x y : Nat) (c : Bool),
        dispatchInput tt (Input.Touch x y c)
          = ((tt.add_touch (x, y) c).1,
             ((tt.add_touch (x, y) c).2).map
               (fun g => DevCall.send_touch_event x y c g)))
    ∧ (∀ (tt : TouchTracker) (b : Bool),
        dispatchInput tt (Input.Button b) = (tt, [DevCall.press_button b]))
    ∧ (∀ (tt : TouchTracker) (pt : Nat × Nat) (c : Bool),
        List.Chain' (fun a b => gestureRank a < gestureRank b)
          ((tt.add_touch pt c).2)) :=
  ⟨fun st evs => runnerRun_calls evs st,
   fun _ _ => rfl,
   fun _ _ _ _ => rfl,
   fun _ _ => rfl,
   add_touch_gesture_order⟩

/-! ## Claim theorems: device facade pieces -/

/-- Claim C10: press_button stores the logical negation of its argument as
the value of pin BTN1 before sending the pin watch event for BTN1 (the
event therefore reports the inverted value), and at construction the
pin vector holds 48 pins with BTN1 initialised to true, i.e. button not
pressed. -/
theorem press_button_inverted_pin (pins : List Bool) (b : Bool)
    (hlen : pins.length = 48) :
    (press_button pins b).2 = (BTN1, !b)
    ∧ ((press_button pins b).1).getD BTN1 false = !b
    ∧ init_banglejs2_pins.getD BTN1 false = true
    ∧ init_banglejs2_pins.length = 48 := by
  have hget : (pins.set BTN1 (!b))[BTN1]? = some (!b) :=
    List.getElem?_set_eq_of_lt (!b) (by rw [hlen]; decide)
  refine ⟨?_, ?_, by decide, by decide⟩
  · simp [press_button, hget]
  · simp [press_button, hget]

/-- Witness for claim C10: pressing the button from the freshly constructed pin
state drives pin BTN1 low and reports the low value in the watch
event. -/
theorem press_button_inverted_pin_witness :
    (press_button init_banglejs2_pins true).2 = (BTN1, false)
    ∧ ((press_button init_banglejs2_pins true).1).getD BTN1 false = false :=
  ⟨(press_button_inverted_pin init_banglejs2_pins true (by decide)).1,
   (press_button_inverted_pin init_banglejs2_pins true (by decide)).2.1⟩

end BangleEmu
